import Mathlib

/-!
Shallow embedding of the catalog consistency subsystem of the
scheduled-music-nextjs repository: the API route handlers under
`src/app/api` (create-event, events GET/DELETE, events/[eventId] PUT/DELETE,
events/expired DELETE) and the end-time derivation of the two front-end
pages, together with spec-level models of the helper modules
(`lib/events`, `lib/timezone`) that are not among the provided sources.

JSON payloads are modelled by an untyped `Json` value type; JavaScript
objects are association lists.  Instants (`new Date(s).getTime()`) are
modelled by an abstract parse function `pd : String → Option Int`
(milliseconds since the epoch; `none` plays the role of `NaN`, and JS
comparisons with `NaN` are `false`).  The persisted catalog document is the
`List EventRecord` carried through each operation; blob-store deletion
(`deleteObjectsForUrls` from `lib/r2Client`) and catalog persistence
(`persistEvents`) are modelled as oracles telling which calls succeed.
-/

/-- Untyped JSON values, as delivered by `request.json()`.  JavaScript
numbers are modelled as integers (the payload numbers relevant here are
track durations and sizes). -/
inductive Json where
  | null
  | bool (b : Bool)
  | num (n : Int)
  | str (s : String)
  | arr (elems : List Json)
  | obj (fields : List (String × Json))

/-- A JSON object payload: an association list of fields.  `lookup`
plays the role of property access, `(payload.lookup k).isSome` the role
of the JavaScript `k in payload` test. -/
abbrev Payload := List (String × Json)

/-- The error classes of the HTTP responses: 400 validation, 404 not
found, 502 upstream (blob-store) failure, 500 storage / unexpected. -/
inductive ApiError where
  | validation (message : String)
  | notFound (message : String)
  | upstream (message : String)
  | storage (message : String)
deriving Repr, DecidableEq

/-- `TrackRecord` from the repository's type declarations. -/
structure Track where
  track_id : String
  track_name : String
  track_url : String
  track_duration_seconds : Int
deriving Repr, DecidableEq

/-- `EventRecord` from the repository's type declarations; the optional
`cover_image_url` is an `Option`. -/
structure EventRecord where
  event_id : String
  event_name : String
  artist_name : String
  start_time_utc : String
  end_time_utc : String
  tracks : List Track
  cover_image_url : Option String
deriving Repr, DecidableEq

/-- Outcome of one route handler invocation: the HTTP-level response,
the persisted catalog document after the operation, whether
`persistEvents` was invoked, and whether `deleteObjectsForUrls` was
invoked. -/
structure OpResult (α : Type) where
  response : Except ApiError α
  catalog : List EventRecord
  wrote : Bool
  r2Attempted : Bool
deriving Repr

/-- JavaScript's `trim()` as used by the handlers, modelled on the
character list so that it evaluates inside the kernel (Lean's own
`String.trim` does not reduce definitionally). -/
def jsTrim (s : String) : String :=
  String.mk (((s.data.dropWhile Char.isWhitespace).reverse.dropWhile
    Char.isWhitespace).reverse)

/-- `new Date(a).getTime() <= new Date(b).getTime()` of the route
handlers: comparisons involving an unparsable date (`NaN`) are `false`. -/
def jsLeTime (pd : String → Option Int) (a b : String) : Bool :=
  match pd a, pd b with
  | some x, some y => decide (x ≤ y)
  | _, _ => false

/-- Modelled from the spec: `ensureIsoDate` of `lib/events` is not among
the provided sources.  Per the Time Normalizer contract it fails with a
validation error naming the field when the input is missing, not a
string, or unparsable as a date, and otherwise yields the ISO string.
Date parsing itself is the abstract parameter `pd`. -/
def ensureIsoDate (pd : String → Option Int) (value : Option Json)
    (fieldName : String) : Except ApiError String :=
  match value with
  | some (.str s) =>
    if (pd s).isSome then .ok s
    else .error (.validation (fieldName ++ " must be a valid ISO-8601 date string."))
  | _ => .error (.validation (fieldName ++ " must be a valid ISO-8601 date string."))

/-- Modelled from the spec (Asset Reference Validator): a track field
that must be a non-empty string. -/
def requireTrackString (fields : Payload) (key : String) :
    Except ApiError String :=
  match fields.lookup key with
  | some (.str s) =>
    if jsTrim s = "" then .error (.validation ("Each track requires " ++ key ++ "."))
    else .ok s
  | _ => .error (.validation ("Each track requires " ++ key ++ "."))

/-- Modelled from the spec: validation of one element of the track list;
the recognized fields are carried through, anything else is dropped
(allow-list policy). -/
def ensureTrack (v : Json) : Except ApiError Track :=
  match v with
  | .obj fields => do
    let id ← requireTrackString fields "track_id"
    let nm ← requireTrackString fields "track_name"
    let url ← requireTrackString fields "track_url"
    match fields.lookup "track_duration_seconds" with
    | some (.num n) =>
      if 0 ≤ n then pure ⟨id, nm, url, n⟩
      else .error (.validation "track_duration_seconds must be a non-negative number.")
    | _ => .error (.validation "track_duration_seconds must be a non-negative number.")
  | _ => .error (.validation "Each track must be an object.")

/-- Modelled from the spec: `ensureTracks` of `lib/events` is not among
the provided sources.  Per the Asset Reference Validator contract it
fails unless the value is a non-empty array of valid track objects, and
returns the normalized list. -/
def ensureTracks (value : Option Json) : Except ApiError (List Track) :=
  match value with
  | some (.arr elems) =>
    if elems.isEmpty then .error (.validation "tracks must be a non-empty array.")
    else elems.mapM ensureTrack
  | _ => .error (.validation "tracks must be a non-empty array.")

/-- The `typeof x !== "string" || !x.trim()` check used for
`event_name` and `artist_name` on both write paths. -/
def requireName (v : Option Json) (message : String) :
    Except ApiError String :=
  match v with
  | some (.str s) => if jsTrim s = "" then .error (.validation message) else .ok s
  | _ => .error (.validation message)

/-- The asset locators of one event, as assembled by the delete
handlers: every track URL, then the cover URL when present. -/
def eventAssetUrls (e : EventRecord) : List String :=
  e.tracks.map Track.track_url ++
    (match e.cover_image_url with
     | some c => [c]
     | none => [])

/-- The asset locators of a list of events (`flatMap` in the delete-all
and delete-expired handlers). -/
def allAssetUrls (events : List EventRecord) : List String :=
  (events.map eventAssetUrls).flatten

/-- `findEventIndex` of `src/app/api/events/[eventId]/route.ts`,
returning the index together with the record found there. -/
def findEventIndex : List EventRecord → String → Option (Nat × EventRecord)
  | [], _ => none
  | e :: rest, eventId =>
    if e.event_id = eventId then some (0, e)
    else (findEventIndex rest eventId).map (fun p => (p.1 + 1, p.2))

/-- Modelled from the spec: `isEventExpired` of `lib/events` is not
among the provided sources.  Per the delete-expired contract an event is
expired when `end_time_utc <= now`; an unparsable stored date compares
as `NaN`, hence not expired. -/
def isEventExpired (pd : String → Option Int) (e : EventRecord)
    (now : Int) : Bool :=
  match pd e.end_time_utc with
  | some t => decide (t ≤ now)
  | none => false

/-- The cover handling of the create path
(`src/app/api/create-event/route.ts`): a string with non-blank trim sets
the trimmed value, anything else leaves the cover unset - no error. -/
def coverCreateSpec (v : Option Json) : Option String :=
  match v with
  | some (.str s) => if jsTrim s = "" then none else some (jsTrim s)
  | _ => none

/-- The cover behavior the update path implements, as a spec-level
function of the looked-up payload value and the old cover: `some c`
means success with new cover `c`, `none` means a validation error. -/
def coverUpdateSpec (v : Option Json) (old : Option String) :
    Option (Option String) :=
  match v with
  | none => some old
  | some .null => some none
  | some (.str s) =>
    if s = "" then some none
    else if jsTrim s = "" then none
    else some (some (jsTrim s))
  | some _ => none

/-- Validation pipeline of the create handler, in source order:
names, both dates, the end-after-start check, the track list, the cover.
On success it builds the new record with the fresh id. -/
def validateCreate (pd : String → Option Int) (payload : Payload)
    (freshId : String) : Except ApiError EventRecord := do
  let eventName ← requireName (payload.lookup "event_name") "event_name is required."
  let artistName ← requireName (payload.lookup "artist_name") "artist_name is required."
  let startIso ← ensureIsoDate pd (payload.lookup "start_time_utc") "start_time_utc"
  let endIso ← ensureIsoDate pd (payload.lookup "end_time_utc") "end_time_utc"
  if jsLeTime pd endIso startIso then
    .error (.validation "end_time_utc must be after start_time_utc.")
  else do
    let normalizedTracks ← ensureTracks (payload.lookup "tracks")
    pure ⟨freshId, jsTrim eventName, jsTrim artistName, startIso, endIso,
      normalizedTracks, coverCreateSpec (payload.lookup "cover_image_url")⟩

/-- `POST /api/create-event`: validate, then read the catalog, append
the new record and persist.  `persistOk` tells whether the
`persistEvents` write succeeds; on its failure the handler answers 500
and the document keeps its old contents. -/
def createEvent (pd : String → Option Int)
    (persistOk : List EventRecord → Bool) (payload : Payload)
    (freshId : String) (events : List EventRecord) : OpResult EventRecord :=
  match validateCreate pd payload freshId with
  | .error err => ⟨.error err, events, false, false⟩
  | .ok newEvent =>
    let next := events ++ [newEvent]
    if persistOk next then ⟨.ok newEvent, next, true, false⟩
    else ⟨.error (.storage "Failed to save the event to disk."), events, true, false⟩

/-- The `"event_name" in payload` branch of the update handler, applied
to the looked-up value (`none` = key absent). -/
def applyEventName (v : Option Json) (e : EventRecord) :
    Except ApiError EventRecord :=
  match v with
  | none => .ok e
  | some (.str s) =>
    if jsTrim s = "" then .error (.validation "event_name is required.")
    else .ok { e with event_name := jsTrim s }
  | some _ => .error (.validation "event_name is required.")

/-- The `"artist_name" in payload` branch of the update handler. -/
def applyArtistName (v : Option Json) (e : EventRecord) :
    Except ApiError EventRecord :=
  match v with
  | none => .ok e
  | some (.str s) =>
    if jsTrim s = "" then .error (.validation "artist_name is required.")
    else .ok { e with artist_name := jsTrim s }
  | some _ => .error (.validation "artist_name is required.")

/-- The `"start_time_utc" in payload` branch of the update handler. -/
def applyStartTime (pd : String → Option Int) (v : Option Json)
    (e : EventRecord) : Except ApiError EventRecord :=
  match v with
  | none => .ok e
  | some j =>
    (ensureIsoDate pd (some j) "start_time_utc").map
      fun iso => { e with start_time_utc := iso }

/-- The `"end_time_utc" in payload` branch of the update handler. -/
def applyEndTime (pd : String → Option Int) (v : Option Json)
    (e : EventRecord) : Except ApiError EventRecord :=
  match v with
  | none => .ok e
  | some j =>
    (ensureIsoDate pd (some j) "end_time_utc").map
      fun iso => { e with end_time_utc := iso }

/-- The `"tracks" in payload` branch of the update handler. -/
def applyTracks (v : Option Json) (e : EventRecord) :
    Except ApiError EventRecord :=
  match v with
  | none => .ok e
  | some j => (ensureTracks (some j)).map fun ts => { e with tracks := ts }

/-- The `"cover_image_url" in payload` branch of the update handler:
null or empty string clears the field, a string with non-blank trim sets
the trimmed value, anything else (a non-string, or a blank string) is a
validation error. -/
def applyCover (v : Option Json) (e : EventRecord) :
    Except ApiError EventRecord :=
  match v with
  | none => .ok e
  | some .null => .ok { e with cover_image_url := none }
  | some (.str s) =>
    if s = "" then .ok { e with cover_image_url := none }
    else if jsTrim s = "" then
      .error (.validation "cover_image_url must be a string if provided.")
    else .ok { e with cover_image_url := some (jsTrim s) }
  | some _ => .error (.validation "cover_image_url must be a string if provided.")

/-- The field-application pipeline of the update handler, in source
order, without the final end-after-start check. -/
def applyUpdateFields (pd : String → Option Int) (payload : Payload)
    (current : EventRecord) : Except ApiError EventRecord := do
  let e1 ← applyEventName (payload.lookup "event_name") current
  let e2 ← applyArtistName (payload.lookup "artist_name") e1
  let e3 ← applyStartTime pd (payload.lookup "start_time_utc") e2
  let e4 ← applyEndTime pd (payload.lookup "end_time_utc") e3
  let e5 ← applyTracks (payload.lookup "tracks") e4
  applyCover (payload.lookup "cover_image_url") e5

/-- Full update validation: apply the supplied fields, then reject when
the resulting record has `end_time_utc <= start_time_utc`. -/
def validateUpdate (pd : String → Option Int) (payload : Payload)
    (current : EventRecord) : Except ApiError EventRecord := do
  let e ← applyUpdateFields pd payload current
  if jsLeTime pd e.end_time_utc e.start_time_utc then
    .error (.validation "end_time_utc must be after start_time_utc.")
  else
    .ok e

/-- `PUT /api/events/[eventId]`: locate the record, reject an empty
payload, validate and apply the supplied fields, then persist the
catalog with the record replaced in place. -/
def updateEvent (pd : String → Option Int)
    (persistOk : List EventRecord → Bool) (events : List EventRecord)
    (eventId : String) (payload : Payload) : OpResult EventRecord :=
  match findEventIndex events eventId with
  | none => ⟨.error (.notFound "Event not found."), events, false, false⟩
  | some (index, currentEvent) =>
    if payload.isEmpty then
      ⟨.error (.validation "No fields provided to update."), events, false, false⟩
    else
      match validateUpdate pd payload currentEvent with
      | .error err => ⟨.error err, events, false, false⟩
      | .ok updatedEvent =>
        let next := events.set index updatedEvent
        if persistOk next then ⟨.ok updatedEvent, next, true, false⟩
        else ⟨.error (.storage "Unexpected error while updating the event."),
          events, true, false⟩

/-- `DELETE /api/events/[eventId]`: locate the record, delete its blob
assets, and only then persist the catalog without it.  `r2del` tells
whether the batched blob deletion of the given locators succeeds. -/
def deleteEvent (r2del : List String → Bool)
    (persistOk : List EventRecord → Bool) (events : List EventRecord)
    (eventId : String) : OpResult (String × Nat) :=
  match findEventIndex events eventId with
  | none => ⟨.error (.notFound "Event not found."), events, false, false⟩
  | some (index, deletedEvent) =>
    let nextEvents := events.take index ++ events.drop (index + 1)
    if r2del (eventAssetUrls deletedEvent) then
      if persistOk nextEvents then
        ⟨.ok (deletedEvent.event_id, nextEvents.length), nextEvents, true, true⟩
      else
        ⟨.error (.storage "Unexpected error while deleting the event."),
          events, true, true⟩
    else
      ⟨.error (.upstream "Unable to delete event assets from storage."),
        events, false, true⟩

/-- `DELETE /api/events`: delete every event's blob assets (skipped on
an empty catalog), then persist an empty catalog.  Note the handler
writes `[]` even when the catalog was already empty. -/
def deleteAllEvents (r2del : List String → Bool)
    (persistOk : List EventRecord → Bool) (events : List EventRecord) :
    OpResult (Nat × Nat) :=
  if events.isEmpty then
    if persistOk [] then ⟨.ok (events.length, 0), [], true, false⟩
    else ⟨.error (.storage "Unable to delete events."), events, true, false⟩
  else if r2del (allAssetUrls events) then
    if persistOk [] then ⟨.ok (events.length, 0), [], true, true⟩
    else ⟨.error (.storage "Unable to delete events."), events, true, true⟩
  else
    ⟨.error (.upstream "Unable to delete event assets from storage."),
      events, false, true⟩

/-- `DELETE /api/events/expired`: partition the catalog by expiry; with
nothing expired answer `deleted 0` without touching storage; otherwise
delete the expired events' blob assets and only then persist the active
remainder. -/
def deleteExpiredEvents (pd : String → Option Int)
    (r2del : List String → Bool) (persistOk : List EventRecord → Bool)
    (events : List EventRecord) (now : Int) : OpResult (Nat × Nat) :=
  let expiredEvents := events.filter (fun e => isEventExpired pd e now)
  let activeEvents := events.filter (fun e => !isEventExpired pd e now)
  let deleted := events.length - activeEvents.length
  if deleted = 0 then
    ⟨.ok (0, events.length), events, false, false⟩
  else if r2del (allAssetUrls expiredEvents) then
    if persistOk activeEvents then
      ⟨.ok (deleted, activeEvents.length), activeEvents, true, true⟩
    else
      ⟨.error (.storage "Unable to delete expired events."), events, true, true⟩
  else
    ⟨.error (.upstream "Unable to delete expired event assets from storage."),
      events, false, true⟩

/-- The sort key of the events listing: `new Date(start_time_utc).getTime()`
(the listing is only meaningful on parsable dates; an unparsable one is
read as 0 here). -/
def startKey (pd : String → Option Int) (e : EventRecord) : Int :=
  (pd e.start_time_utc).getD 0

/-- `GET /api/events`: a copy of the catalog sorted ascending by start
time (stable sort on the comparator `timeA - timeB`); the stored
document itself is not touched. -/
def listEvents (pd : String → Option Int) (events : List EventRecord) :
    List EventRecord :=
  events.mergeSort (fun a b => decide (startKey pd a ≤ startKey pd b))

/-- The `reduce` over `track_duration_seconds` of `submitEvent`
(`src/app/upload-event/page.jsx`) and `handleUpdateEvent`
(`src/app/events/page.tsx`). -/
def totalTrackSeconds (tracks : List Track) : Int :=
  tracks.foldl (fun sum track => sum + track.track_duration_seconds) 0

/-- The derived end instant of the two front-end pages:
`new Date(new Date(startUtc).getTime() + totalSeconds * 1000)`, in
milliseconds since the epoch. -/
def derivedEndMs (startMs : Int) (tracks : List Track) : Int :=
  startMs + totalTrackSeconds tracks * 1000

/-- Modelled from the spec: `lib/timezone` is not among the provided
sources.  A local wall-clock value at minute granularity in the fixed
Sri Lanka offset (UTC+05:30, no DST).  The calendar-date part of the
`datetime-local` string is abstracted as an integer day index; hour and
minute are the remaining wall-clock fields. -/
structure SriLankaWallClock where
  day : Int
  hour : Int
  minute : Int
deriving Repr, DecidableEq

/-- A wall-clock value whose hour and minute fields are in range. -/
def SriLankaWallClock.Valid (w : SriLankaWallClock) : Prop :=
  0 ≤ w.hour ∧ w.hour < 24 ∧ 0 ≤ w.minute ∧ w.minute < 60

instance (w : SriLankaWallClock) : Decidable w.Valid := by
  unfold SriLankaWallClock.Valid
  infer_instance

/-- The fixed Sri Lanka UTC offset, in minutes. -/
def sriLankaOffsetMinutes : Int := 330

/-- Modelled from the spec: `convertSriLankaInputToUtc` interprets the
wall-clock input in the fixed +05:30 offset and produces the UTC
instant, here counted in minutes since the epoch. -/
def convertSriLankaInputToUtc (w : SriLankaWallClock) : Int :=
  w.day * 1440 + w.hour * 60 + w.minute - sriLankaOffsetMinutes

/-- Modelled from the spec: `toSriLankaInputValue` renders a UTC instant
(minutes since the epoch) back into the +05:30 wall-clock form for the
`datetime-local` input. -/
def toSriLankaInputValue (u : Int) : SriLankaWallClock :=
  let t := u + sriLankaOffsetMinutes
  ⟨t / 1440, t % 1440 / 60, t % 60⟩

/-! ### Concrete scenario fixtures (used by the witness theorems) -/

/-- A concrete date parser for the witness scenarios, knowing the
instants of the spec's example scenario A. -/
def pdEx : String → Option Int
  | "2024-01-01T00:00:00Z" => some 0
  | "2024-01-01T02:00:00Z" => some 7200000
  | "2024-01-01T03:00:00Z" => some 10800000
  | _ => none

/-- A persistence oracle whose writes always succeed. -/
def persistAlways : List EventRecord → Bool := fun _ => true

/-- A blob-store deletion oracle that always fails. -/
def r2AlwaysFail : List String → Bool := fun _ => false

/-- A blob-store deletion oracle that always succeeds. -/
def r2AlwaysOk : List String → Bool := fun _ => true

def trackEx : Track := ⟨"t1", "Track 1", "https://cdn/t1.mp3", 300⟩

def eventEx : EventRecord :=
  ⟨"e1", "Sunrise Session", "DJ X", "2024-01-01T00:00:00Z",
    "2024-01-01T02:00:00Z", [trackEx], none⟩

def eventEx2 : EventRecord :=
  ⟨"e2", "Moonlight Set", "DJ Y", "2024-01-01T02:00:00Z",
    "2024-01-01T03:00:00Z", [trackEx], some "https://cdn/c2.jpg"⟩

def trackJsonEx : Json :=
  .obj [("track_id", .str "t1"), ("track_name", .str "Track 1"),
    ("track_url", .str "https://cdn/t1.mp3"),
    ("track_duration_seconds", .num 300)]

/-- The create payload of the spec's example scenario A. -/
def createPayloadEx : Payload :=
  [("event_name", .str "Sunrise Session"), ("artist_name", .str "DJ X"),
   ("start_time_utc", .str "2024-01-01T00:00:00Z"),
   ("end_time_utc", .str "2024-01-01T02:00:00Z"),
   ("tracks", .arr [trackJsonEx])]

/-- Scenario A's payload with a numeric cover value attached. -/
def createPayloadNumCover : Payload :=
  createPayloadEx ++ [("cover_image_url", .num 42)]

/-- Scenario A's payload with start and end swapped, so that the
effective end time precedes the start time. -/
def createPayloadBadTimes : Payload :=
  [("event_name", .str "Sunrise Session"), ("artist_name", .str "DJ X"),
   ("start_time_utc", .str "2024-01-01T02:00:00Z"),
   ("end_time_utc", .str "2024-01-01T00:00:00Z"),
   ("tracks", .arr [trackJsonEx])]

/-- A partial update payload supplying only the event name. -/
def renamePayload : Payload := [("event_name", .str "New Name")]

/-- A partial update payload moving the end time later. -/
def retimePayload : Payload := [("end_time_utc", .str "2024-01-01T03:00:00Z")]

/-- A partial update payload forcing the end time onto the start time. -/
def badRetimePayload : Payload := [("end_time_utc", .str "2024-01-01T00:00:00Z")]

/-! ### Helper lemmas -/

theorem requireName_cases (v : Option Json) (m : String) :
    (∃ s, requireName v m = .ok s) ∨
      requireName v m = .error (.validation m) := by
  match v with
  | none => right; rfl
  | some (.str s) =>
    by_cases h : jsTrim s = ""
    · right; simp [requireName, h]
    · left; exact ⟨s, by simp [requireName, h]⟩
  | some .null | some (.bool _) | some (.num _) | some (.arr _)
  | some (.obj _) => right; rfl

theorem ensureIsoDate_ok {pd : String → Option Int} {v : Option Json}
    {f s : String} (h : ensureIsoDate pd v f = .ok s) :
    v = some (.str s) ∧ (pd s).isSome := by
  match v with
  | none => simp [ensureIsoDate] at h
  | some (.str s') =>
    by_cases hp : (pd s').isSome
    · simp [ensureIsoDate, hp] at h
      subst h; exact ⟨rfl, hp⟩
    · simp [ensureIsoDate, hp] at h
  | some .null | some (.bool _) | some (.num _) | some (.arr _)
  | some (.obj _) => simp [ensureIsoDate] at h

theorem findEventIndex_mem {evs : List EventRecord} {eventId : String}
    {i : Nat} {e : EventRecord}
    (h : findEventIndex evs eventId = some (i, e)) : e ∈ evs := by
  induction evs generalizing i with
  | nil => simp [findEventIndex] at h
  | cons a rest ih =>
    simp only [findEventIndex] at h
    split at h
    · cases h; exact List.mem_cons_self _ _
    · match hr : findEventIndex rest eventId with
      | none => rw [hr] at h; simp at h
      | some p =>
        rw [hr] at h
        simp at h
        obtain ⟨h1, h2⟩ := h
        subst h2
        exact List.mem_cons_of_mem _ (ih hr)

theorem findEventIndex_eq_none {evs : List EventRecord} {eventId : String}
    (h : ∀ e ∈ evs, e.event_id ≠ eventId) :
    findEventIndex evs eventId = none := by
  induction evs with
  | nil => rfl
  | cons a rest ih =>
    simp only [findEventIndex]
    rw [if_neg (h a (List.mem_cons_self a rest))]
    rw [ih fun e he => h e (List.mem_cons_of_mem a he)]
    rfl

theorem applyEventName_ok {v : Option Json} {e e2 : EventRecord}
    (h : applyEventName v e = .ok e2) :
    e2.event_id = e.event_id ∧ e2.artist_name = e.artist_name ∧
    e2.start_time_utc = e.start_time_utc ∧ e2.end_time_utc = e.end_time_utc ∧
    e2.tracks = e.tracks ∧ e2.cover_image_url = e.cover_image_url ∧
    (v = none → e2 = e) ∧
    (∀ s, v = some (.str s) → e2.event_name = jsTrim s) := by
  match v with
  | none =>
    simp only [applyEventName] at h
    cases h
    simp
  | some (.str s) =>
    simp only [applyEventName] at h
    split at h
    · simp at h
    · cases h; simp
  | some .null | some (.bool _) | some (.num _) | some (.arr _)
  | some (.obj _) => simp [applyEventName] at h

theorem applyArtistName_ok {v : Option Json} {e e2 : EventRecord}
    (h : applyArtistName v e = .ok e2) :
    e2.event_id = e.event_id ∧ e2.event_name = e.event_name ∧
    e2.start_time_utc = e.start_time_utc ∧ e2.end_time_utc = e.end_time_utc ∧
    e2.tracks = e.tracks ∧ e2.cover_image_url = e.cover_image_url ∧
    (v = none → e2 = e) := by
  match v with
  | none =>
    simp only [applyArtistName] at h
    cases h
    simp
  | some (.str s) =>
    simp only [applyArtistName] at h
    split at h
    · simp at h
    · cases h; simp
  | some .null | some (.bool _) | some (.num _) | some (.arr _)
  | some (.obj _) => simp [applyArtistName] at h

theorem applyStartTime_ok {pd : String → Option Int} {v : Option Json}
    {e e2 : EventRecord} (h : applyStartTime pd v e = .ok e2) :
    e2.event_id = e.event_id ∧ e2.event_name = e.event_name ∧
    e2.artist_name = e.artist_name ∧ e2.end_time_utc = e.end_time_utc ∧
    e2.tracks = e.tracks ∧ e2.cover_image_url = e.cover_image_url ∧
    (v = none → e2 = e) ∧
    (e2.start_time_utc = e.start_time_utc ∨ (pd e2.start_time_utc).isSome) := by
  match v with
  | none =>
    simp only [applyStartTime] at h
    cases h
    simp
  | some j =>
    simp only [applyStartTime] at h
    match he : ensureIsoDate pd (some j) "start_time_utc" with
    | .error err => rw [he] at h; simp [Except.map] at h
    | .ok iso =>
      rw [he] at h
      simp only [Except.map] at h
      cases h
      exact ⟨rfl, rfl, rfl, rfl, rfl, rfl, by simp,
        Or.inr (ensureIsoDate_ok he).2⟩

theorem applyEndTime_ok {pd : String → Option Int} {v : Option Json}
    {e e2 : EventRecord} (h : applyEndTime pd v e = .ok e2) :
    e2.event_id = e.event_id ∧ e2.event_name = e.event_name ∧
    e2.artist_name = e.artist_name ∧ e2.start_time_utc = e.start_time_utc ∧
    e2.tracks = e.tracks ∧ e2.cover_image_url = e.cover_image_url ∧
    (v = none → e2 = e) ∧
    (e2.end_time_utc = e.end_time_utc ∨ (pd e2.end_time_utc).isSome) := by
  match v with
  | none =>
    simp only [applyEndTime] at h
    cases h
    simp
  | some j =>
    simp only [applyEndTime] at h
    match he : ensureIsoDate pd (some j) "end_time_utc" with
    | .error err => rw [he] at h; simp [Except.map] at h
    | .ok iso =>
      rw [he] at h
      simp only [Except.map] at h
      cases h
      exact ⟨rfl, rfl, rfl, rfl, rfl, rfl, by simp,
        Or.inr (ensureIsoDate_ok he).2⟩

theorem applyTracks_ok {v : Option Json} {e e2 : EventRecord}
    (h : applyTracks v e = .ok e2) :
    e2.event_id = e.event_id ∧ e2.event_name = e.event_name ∧
    e2.artist_name = e.artist_name ∧ e2.start_time_utc = e.start_time_utc ∧
    e2.end_time_utc = e.end_time_utc ∧ e2.cover_image_url = e.cover_image_url ∧
    (v = none → e2 = e) := by
  match v with
  | none =>
    simp only [applyTracks] at h
    cases h
    simp
  | some j =>
    simp only [applyTracks] at h
    match he : ensureTracks (some j) with
    | .error err => rw [he] at h; simp [Except.map] at h
    | .ok ts =>
      rw [he] at h
      simp only [Except.map] at h
      cases h
      exact ⟨rfl, rfl, rfl, rfl, rfl, rfl, by simp⟩

theorem applyCover_ok {v : Option Json} {e e2 : EventRecord}
    (h : applyCover v e = .ok e2) :
    e2.event_id = e.event_id ∧ e2.event_name = e.event_name ∧
    e2.artist_name = e.artist_name ∧ e2.start_time_utc = e.start_time_utc ∧
    e2.end_time_utc = e.end_time_utc ∧ e2.tracks = e.tracks ∧
    (v = none → e2 = e) := by
  match v with
  | none =>
    simp only [applyCover] at h
    cases h
    simp
  | some .null =>
    simp only [applyCover] at h
    cases h
    simp
  | some (.str s) =>
    simp only [applyCover] at h
    split at h
    · cases h; simp
    · split at h
      · simp at h
      · cases h; simp
  | some (.bool _) | some (.num _) | some (.arr _) | some (.obj _) =>
    simp [applyCover] at h

theorem validateUpdate_ok {pd : String → Option Int} {payload : Payload}
    {current e' : EventRecord}
    (h : validateUpdate pd payload current = .ok e') :
    ∃ e1 e2 e3 e4 e5,
      applyEventName (payload.lookup "event_name") current = .ok e1 ∧
      applyArtistName (payload.lookup "artist_name") e1 = .ok e2 ∧
      applyStartTime pd (payload.lookup "start_time_utc") e2 = .ok e3 ∧
      applyEndTime pd (payload.lookup "end_time_utc") e3 = .ok e4 ∧
      applyTracks (payload.lookup "tracks") e4 = .ok e5 ∧
      applyCover (payload.lookup "cover_image_url") e5 = .ok e' ∧
      jsLeTime pd e'.end_time_utc e'.start_time_utc = false := by
  unfold validateUpdate at h
  unfold applyUpdateFields at h
  obtain ⟨e1, h1⟩ : ∃ x, applyEventName (payload.lookup "event_name") current = .ok x := by
    cases ha : applyEventName (payload.lookup "event_name") current with
    | error err => rw [ha] at h; simp [Bind.bind, Except.bind] at h
    | ok x => exact ⟨x, rfl⟩
  rw [h1] at h
  simp only [Bind.bind, Except.bind] at h
  obtain ⟨e2, h2⟩ : ∃ x, applyArtistName (payload.lookup "artist_name") e1 = .ok x := by
    cases ha : applyArtistName (payload.lookup "artist_name") e1 with
    | error err => rw [ha] at h; simp at h
    | ok x => exact ⟨x, rfl⟩
  rw [h2] at h
  simp only [] at h
  obtain ⟨e3, h3⟩ : ∃ x, applyStartTime pd (payload.lookup "start_time_utc") e2 = .ok x := by
    cases ha : applyStartTime pd (payload.lookup "start_time_utc") e2 with
    | error err => rw [ha] at h; simp at h
    | ok x => exact ⟨x, rfl⟩
  rw [h3] at h
  simp only [] at h
  obtain ⟨e4, h4⟩ : ∃ x, applyEndTime pd (payload.lookup "end_time_utc") e3 = .ok x := by
    cases ha : applyEndTime pd (payload.lookup "end_time_utc") e3 with
    | error err => rw [ha] at h; simp at h
    | ok x => exact ⟨x, rfl⟩
  rw [h4] at h
  simp only [] at h
  obtain ⟨e5, h5⟩ : ∃ x, applyTracks (payload.lookup "tracks") e4 = .ok x := by
    cases ha : applyTracks (payload.lookup "tracks") e4 with
    | error err => rw [ha] at h; simp at h
    | ok x => exact ⟨x, rfl⟩
  rw [h5] at h
  simp only [] at h
  obtain ⟨e6, h6⟩ : ∃ x, applyCover (payload.lookup "cover_image_url") e5 = .ok x := by
    cases ha : applyCover (payload.lookup "cover_image_url") e5 with
    | error err => rw [ha] at h; simp at h
    | ok x => exact ⟨x, rfl⟩
  rw [h6] at h
  simp only [] at h
  by_cases hc : jsLeTime pd e6.end_time_utc e6.start_time_utc = true
  · rw [if_pos hc] at h
    simp at h
  · rw [if_neg hc] at h
    cases h
    exact ⟨e1, e2, e3, e4, e5, h1, h2, h3, h4, h5, h6, by simpa using hc⟩

theorem validateCreate_ok {pd : String → Option Int} {payload : Payload}
    {freshId : String} {e : EventRecord}
    (h : validateCreate pd payload freshId = .ok e) :
    ∃ en an si ei ts,
      requireName (payload.lookup "event_name") "event_name is required." = .ok en ∧
      requireName (payload.lookup "artist_name") "artist_name is required." = .ok an ∧
      ensureIsoDate pd (payload.lookup "start_time_utc") "start_time_utc" = .ok si ∧
      ensureIsoDate pd (payload.lookup "end_time_utc") "end_time_utc" = .ok ei ∧
      jsLeTime pd ei si = false ∧
      ensureTracks (payload.lookup "tracks") = .ok ts ∧
      e = ⟨freshId, jsTrim en, jsTrim an, si, ei, ts,
        coverCreateSpec (payload.lookup "cover_image_url")⟩ := by
  unfold validateCreate at h
  obtain ⟨en, h1⟩ : ∃ x,
      requireName (payload.lookup "event_name") "event_name is required." = .ok x := by
    cases ha : requireName (payload.lookup "event_name") "event_name is required." with
    | error err => rw [ha] at h; simp [Bind.bind, Except.bind] at h
    | ok x => exact ⟨x, rfl⟩
  rw [h1] at h
  simp only [Bind.bind, Except.bind] at h
  obtain ⟨an, h2⟩ : ∃ x,
      requireName (payload.lookup "artist_name") "artist_name is required." = .ok x := by
    cases ha : requireName (payload.lookup "artist_name") "artist_name is required." with
    | error err => rw [ha] at h; simp at h
    | ok x => exact ⟨x, rfl⟩
  rw [h2] at h
  try simp only [] at h
  obtain ⟨si, h3⟩ : ∃ x,
      ensureIsoDate pd (payload.lookup "start_time_utc") "start_time_utc" = .ok x := by
    cases ha : ensureIsoDate pd (payload.lookup "start_time_utc") "start_time_utc" with
    | error err => rw [ha] at h; simp at h
    | ok x => exact ⟨x, rfl⟩
  rw [h3] at h
  try simp only [] at h
  obtain ⟨ei, h4⟩ : ∃ x,
      ensureIsoDate pd (payload.lookup "end_time_utc") "end_time_utc" = .ok x := by
    cases ha : ensureIsoDate pd (payload.lookup "end_time_utc") "end_time_utc" with
    | error err => rw [ha] at h; simp at h
    | ok x => exact ⟨x, rfl⟩
  rw [h4] at h
  try simp only [] at h
  by_cases hc : jsLeTime pd ei si = true
  · rw [if_pos hc] at h
    simp at h
  · rw [if_neg hc] at h
    try simp only [Bind.bind, Except.bind] at h
    obtain ⟨ts, h5⟩ : ∃ x, ensureTracks (payload.lookup "tracks") = .ok x := by
      cases ha : ensureTracks (payload.lookup "tracks") with
      | error err => rw [ha] at h; simp at h
      | ok x => exact ⟨x, rfl⟩
    rw [h5] at h
    simp only [Pure.pure, Except.pure] at h
    cases h
    exact ⟨en, an, si, ei, ts, h1, h2, h3, h4, by simpa using hc, h5, rfl⟩

theorem updateEvent_ok {pd : String → Option Int}
    {persistOk : List EventRecord → Bool} {events : List EventRecord}
    {eventId : String} {payload : Payload} {e' : EventRecord}
    (h : (updateEvent pd persistOk events eventId payload).response = .ok e') :
    ∃ i cur, findEventIndex events eventId = some (i, cur) ∧
      payload ≠ [] ∧ validateUpdate pd payload cur = .ok e' ∧
      (updateEvent pd persistOk events eventId payload).catalog =
        events.set i e' := by
  unfold updateEvent at h ⊢
  obtain ⟨i, cur, hf⟩ : ∃ i cur, findEventIndex events eventId = some (i, cur) := by
    cases hf : findEventIndex events eventId with
    | none => rw [hf] at h; simp at h
    | some p => exact ⟨p.1, p.2, rfl⟩
  rw [hf] at h ⊢
  try simp only [] at h ⊢
  by_cases hemp : payload.isEmpty = true
  · rw [if_pos hemp] at h; simp at h
  · rw [if_neg hemp] at h ⊢
    obtain ⟨upd, hv⟩ : ∃ x, validateUpdate pd payload cur = .ok x := by
      cases hv : validateUpdate pd payload cur with
      | error err => rw [hv] at h; simp at h
      | ok x => exact ⟨x, rfl⟩
    rw [hv] at h ⊢
    try simp only [] at h ⊢
    by_cases hp : persistOk (events.set i upd) = true
    · rw [if_pos hp] at h ⊢
      try simp only [] at h ⊢
      try simp only [OpResult.response] at h
      cases h
      exact ⟨i, cur, rfl, by simpa using hemp, hv, by simp⟩
    · rw [if_neg hp] at h
      simp at h

/-! ### Claim theorems -/

/-- C4: deleting an `event_id` that is not present in the catalog fails
with a NotFoundError, attempts no blob-store deletion, and leaves the
persisted catalog document unchanged (no write is performed). -/
theorem deleteEvent_notFound {r2del : List String → Bool}
    {persistOk : List EventRecord → Bool} {events : List EventRecord}
    {eventId : String} (h : ∀ e ∈ events, e.event_id ≠ eventId) :
    deleteEvent r2del persistOk events eventId =
      ⟨.error (.notFound "Event not found."), events, false, false⟩ := by
  unfold deleteEvent
  rw [findEventIndex_eq_none h]

theorem deleteEvent_notFound_witness :
    (∀ e ∈ [eventEx], e.event_id ≠ "missing") ∧
      deleteEvent r2AlwaysOk persistAlways [eventEx] "missing" =
        ⟨.error (.notFound "Event not found."), [eventEx], false, false⟩ :=
  ⟨by decide, deleteEvent_notFound (by decide)⟩

/-- C10: updating an existing event with an empty payload fails with the
ValidationError "No fields provided to update." and leaves the catalog
unchanged (no write is performed). -/
theorem updateEvent_emptyPayload {pd : String → Option Int}
    {persistOk : List EventRecord → Bool} {events : List EventRecord}
    {eventId : String} {i : Nat} {cur : EventRecord}
    (hf : findEventIndex events eventId = some (i, cur)) :
    updateEvent pd persistOk events eventId [] =
      ⟨.error (.validation "No fields provided to update."), events,
        false, false⟩ := by
  unfold updateEvent
  rw [hf]
  rfl

theorem updateEvent_emptyPayload_witness :
    findEventIndex [eventEx] "e1" = some (0, eventEx) ∧
      updateEvent pdEx persistAlways [eventEx] "e1" [] =
        ⟨.error (.validation "No fields provided to update."), [eventEx],
          false, false⟩ :=
  ⟨rfl, updateEvent_emptyPayload rfl⟩

/-- C3: when no event in the catalog is expired at the sweep instant,
`deleteExpiredEvents` performs no write at all (`persistEvents` is not
invoked), attempts no blob deletion, and answers success with deleted
count 0 and the full catalog untouched. -/
theorem deleteExpired_noneExpired {pd : String → Option Int}
    {r2del : List String → Bool} {persistOk : List EventRecord → Bool}
    {events : List EventRecord} {now : Int}
    (h : ∀ e ∈ events, isEventExpired pd e now = false) :
    deleteExpiredEvents pd r2del persistOk events now =
      ⟨.ok (0, events.length), events, false, false⟩ := by
  have hactive : events.filter (fun e => !isEventExpired pd e now) = events :=
    List.filter_eq_self.mpr (fun a ha => by simp [h a ha])
  unfold deleteExpiredEvents
  rw [hactive]
  simp

theorem deleteExpired_noneExpired_witness :
    (∀ e ∈ [eventEx, eventEx2], isEventExpired pdEx e (-1) = false) ∧
      deleteExpiredEvents pdEx r2AlwaysFail persistAlways
          [eventEx, eventEx2] (-1) =
        ⟨.ok (0, 2), [eventEx, eventEx2], false, false⟩ :=
  ⟨by decide, deleteExpired_noneExpired (by decide)⟩

/-- C1: in each destructive operation (delete-one, delete-all,
delete-expired), when the blob-store deletion step is reached and fails,
the handler answers the upstream-storage error and the persisted catalog
document is left exactly as it was (no write is performed, no partial
removal). -/
theorem destructive_abort_on_upstream_failure :
    (∀ (r2del : List String → Bool) (persistOk : List EventRecord → Bool)
        (events : List EventRecord) (eventId : String) (i : Nat)
        (e : EventRecord),
      findEventIndex events eventId = some (i, e) →
      r2del (eventAssetUrls e) = false →
      deleteEvent r2del persistOk events eventId =
        ⟨.error (.upstream "Unable to delete event assets from storage."),
          events, false, true⟩) ∧
    (∀ (r2del : List String → Bool) (persistOk : List EventRecord → Bool)
        (events : List EventRecord),
      events ≠ [] → r2del (allAssetUrls events) = false →
      deleteAllEvents r2del persistOk events =
        ⟨.error (.upstream "Unable to delete event assets from storage."),
          events, false, true⟩) ∧
    (∀ (pd : String → Option Int) (r2del : List String → Bool)
        (persistOk : List EventRecord → Bool) (events : List EventRecord)
        (now : Int),
      events.length -
          (events.filter (fun e => !isEventExpired pd e now)).length ≠ 0 →
      r2del (allAssetUrls (events.filter (fun e => isEventExpired pd e now)))
          = false →
      deleteExpiredEvents pd r2del persistOk events now =
        ⟨.error (.upstream
            "Unable to delete expired event assets from storage."),
          events, false, true⟩) := by
  refine ⟨?_, ?_, ?_⟩
  · intro r2del persistOk events eventId i e hf hr2
    unfold deleteEvent
    rw [hf]
    simp [hr2]
  · intro r2del persistOk events hne hr2
    have hemp : events.isEmpty = false := by
      cases events with
      | nil => exact absurd rfl hne
      | cons a rest => rfl
    unfold deleteAllEvents
    simp [hemp, hr2]
  · intro pd r2del persistOk events now hd hr2
    unfold deleteExpiredEvents
    simp [hd, hr2]

theorem destructive_abort_on_upstream_failure_witness :
    deleteEvent r2AlwaysFail persistAlways [eventEx] "e1" =
      ⟨.error (.upstream "Unable to delete event assets from storage."),
        [eventEx], false, true⟩ ∧
    deleteAllEvents r2AlwaysFail persistAlways [eventEx] =
      ⟨.error (.upstream "Unable to delete event assets from storage."),
        [eventEx], false, true⟩ ∧
    deleteExpiredEvents pdEx r2AlwaysFail persistAlways [eventEx] 7200000 =
      ⟨.error (.upstream
          "Unable to delete expired event assets from storage."),
        [eventEx], false, true⟩ :=
  ⟨destructive_abort_on_upstream_failure.1 r2AlwaysFail persistAlways
      [eventEx] "e1" 0 eventEx rfl rfl,
    destructive_abort_on_upstream_failure.2.1 r2AlwaysFail persistAlways
      [eventEx] (by simp) rfl,
    destructive_abort_on_upstream_failure.2.2 pdEx r2AlwaysFail
      persistAlways [eventEx] 7200000 (by decide) rfl⟩

/-- C6: the events listing returns a permutation of the stored catalog
sorted ascending by start time, while the stored document itself keeps
insertion order: a successful create persists exactly the old catalog
with the new record appended at the end. -/
theorem listEvents_sorted_create_appends :
    (∀ (pd : String → Option Int) (events : List EventRecord),
      (listEvents pd events).Perm events) ∧
    (∀ (pd : String → Option Int) (events : List EventRecord),
      (listEvents pd events).Pairwise
        (fun a b => startKey pd a ≤ startKey pd b)) ∧
    (∀ (pd : String → Option Int) (persistOk : List EventRecord → Bool)
        (payload : Payload) (freshId : String) (events : List EventRecord)
        (e : EventRecord),
      (createEvent pd persistOk payload freshId events).response = .ok e →
      (createEvent pd persistOk payload freshId events).catalog =
        events ++ [e]) := by
  refine ⟨?_, ?_, ?_⟩
  · intro pd events
    exact List.mergeSort_perm events _
  · intro pd events
    have hs : (events.mergeSort
        (fun a b => decide (startKey pd a ≤ startKey pd b))).Pairwise
          (fun a b => decide (startKey pd a ≤ startKey pd b) = true) :=
      List.sorted_mergeSort
        (fun a b c hab hbc => by
          simp only [decide_eq_true_eq] at *
          exact le_trans hab hbc)
        (fun a b => by
          simp only [Bool.or_eq_true, decide_eq_true_eq]
          exact le_total _ _)
        events
    exact hs.imp (fun h => by simpa using h)
  · intro pd persistOk payload freshId events e hok
    unfold createEvent at hok ⊢
    cases hv : validateCreate pd payload freshId with
    | error err => rw [hv] at hok; simp at hok
    | ok newEvent =>
      rw [hv] at hok
      try simp only [] at hok ⊢
      try simp only [] at hok ⊢
      by_cases hp : persistOk (events ++ [newEvent]) = true
      · rw [if_pos hp] at hok ⊢
        try simp only [OpResult.response] at hok
        cases hok
        rfl
      · rw [if_neg hp] at hok
        simp at hok

theorem listEvents_sorted_create_appends_witness :
    (listEvents pdEx [eventEx2, eventEx]).Perm [eventEx2, eventEx] ∧
    (listEvents pdEx [eventEx2, eventEx]).Pairwise
      (fun a b => startKey pdEx a ≤ startKey pdEx b) ∧
    (createEvent pdEx persistAlways createPayloadEx "e1" []).catalog =
      [] ++ [eventEx] :=
  ⟨listEvents_sorted_create_appends.1 pdEx [eventEx2, eventEx],
    listEvents_sorted_create_appends.2.1 pdEx [eventEx2, eventEx],
    listEvents_sorted_create_appends.2.2 pdEx persistAlways createPayloadEx
      "e1" [] eventEx rfl⟩

theorem totalTrackSeconds_foldl (tracks : List Track) (init : Int) :
    tracks.foldl (fun sum track => sum + track.track_duration_seconds) init =
      init + (tracks.map Track.track_duration_seconds).sum := by
  induction tracks generalizing init with
  | nil => simp
  | cons t ts ih =>
    simp only [List.foldl_cons, List.map_cons, List.sum_cons, ih]
    ring

/-- C8: the end instant the creation and edit flows submit is exactly
the start instant plus the sum of the attached tracks' durations (in
seconds, i.e. 1000 milliseconds per duration unit); the end time is
derived, not independently chosen. -/
theorem derivedEnd_eq_start_plus_durations (startMs : Int)
    (tracks : List Track) :
    derivedEndMs startMs tracks =
      startMs + 1000 * (tracks.map Track.track_duration_seconds).sum := by
  unfold derivedEndMs totalTrackSeconds
  rw [totalTrackSeconds_foldl]
  ring

/-- C9: converting a valid local Sri Lanka wall-clock value (minute
granularity, fixed +05:30 offset) to a UTC instant and rendering it back
is the identity. -/
theorem sriLanka_roundTrip (w : SriLankaWallClock) (hw : w.Valid) :
    toSriLankaInputValue (convertSriLankaInputToUtc w) = w := by
  obtain ⟨d, hr, mi⟩ := w
  obtain ⟨h1, h2, h3, h4⟩ := hw
  unfold toSriLankaInputValue convertSriLankaInputToUtc sriLankaOffsetMinutes
  simp only [SriLankaWallClock.mk.injEq]
  dsimp only at h1 h2 h3 h4
  refine ⟨?_, ?_, ?_⟩ <;> omega

theorem sriLanka_roundTrip_witness :
    (SriLankaWallClock.mk 19723 23 45).Valid ∧
      toSriLankaInputValue
          (convertSriLankaInputToUtc ⟨19723, 23, 45⟩) = ⟨19723, 23, 45⟩ :=
  ⟨by decide, sriLanka_roundTrip _ (by decide)⟩

/-- C2: every event persisted through create or update has its end time
strictly after its start time (for update, on catalogs whose stored
dates parse); and whenever the effective end time (after applying the
supplied fields) is at or before the effective start time, the operation
fails with a ValidationError and the catalog is unchanged. -/
theorem end_after_start_enforced :
    (∀ (pd : String → Option Int) (persistOk : List EventRecord → Bool)
        (payload : Payload) (freshId : String) (events : List EventRecord)
        (e : EventRecord),
      (createEvent pd persistOk payload freshId events).response = .ok e →
      ∃ s t, pd e.start_time_utc = some s ∧ pd e.end_time_utc = some t ∧
        s < t) ∧
    (∀ (pd : String → Option Int) (persistOk : List EventRecord → Bool)
        (payload : Payload) (freshId : String) (events : List EventRecord)
        (ss es : String) (s t : Int),
      payload.lookup "start_time_utc" = some (.str ss) →
      payload.lookup "end_time_utc" = some (.str es) →
      pd ss = some s → pd es = some t → t ≤ s →
      (∃ m, (createEvent pd persistOk payload freshId events).response =
        .error (.validation m)) ∧
      (createEvent pd persistOk payload freshId events).catalog = events) ∧
    (∀ (pd : String → Option Int) (persistOk : List EventRecord → Bool)
        (events : List EventRecord) (eventId : String) (payload : Payload)
        (e' : EventRecord),
      (∀ ev ∈ events,
        (pd ev.start_time_utc).isSome ∧ (pd ev.end_time_utc).isSome) →
      (updateEvent pd persistOk events eventId payload).response = .ok e' →
      ∃ s t, pd e'.start_time_utc = some s ∧ pd e'.end_time_utc = some t ∧
        s < t) ∧
    (∀ (pd : String → Option Int) (persistOk : List EventRecord → Bool)
        (events : List EventRecord) (eventId : String) (payload : Payload)
        (i : Nat) (cur e' : EventRecord),
      findEventIndex events eventId = some (i, cur) → payload ≠ [] →
      applyUpdateFields pd payload cur = .ok e' →
      jsLeTime pd e'.end_time_utc e'.start_time_utc = true →
      updateEvent pd persistOk events eventId payload =
        ⟨.error (.validation "end_time_utc must be after start_time_utc."),
          events, false, false⟩) := by
  refine ⟨?_, ?_, ?_, ?_⟩
  · intro pd persistOk payload freshId events e hok
    unfold createEvent at hok
    cases hv : validateCreate pd payload freshId with
    | error err => rw [hv] at hok; simp at hok
    | ok newEvent =>
      rw [hv] at hok
      try simp only [] at hok
      by_cases hp : persistOk (events ++ [newEvent]) = true
      · rw [if_pos hp] at hok
        try simp only [OpResult.response] at hok
        cases hok
        obtain ⟨en, an, si, ei, ts, hn1, hn2, hs, he, hle, htr, hee⟩ :=
          validateCreate_ok hv
        subst hee
        obtain ⟨s, hs'⟩ :=
          Option.isSome_iff_exists.mp (ensureIsoDate_ok hs).2
        obtain ⟨t, ht'⟩ :=
          Option.isSome_iff_exists.mp (ensureIsoDate_ok he).2
        refine ⟨s, t, hs', ht', ?_⟩
        unfold jsLeTime at hle
        rw [ht', hs'] at hle
        simp at hle
        omega
      · rw [if_neg hp] at hok
        simp at hok
  · intro pd persistOk payload freshId events ss es s t hls hle hpds hpde hts
    have hvc : validateCreate pd payload freshId =
        .error (.validation "end_time_utc must be after start_time_utc.") ∨
        ∃ m, validateCreate pd payload freshId = .error (.validation m) := by
      rcases requireName_cases (payload.lookup "event_name")
          "event_name is required." with ⟨en, hen⟩ | hen
      · rcases requireName_cases (payload.lookup "artist_name")
            "artist_name is required." with ⟨an, han⟩ | han
        · left
          have hsi : ensureIsoDate pd (payload.lookup "start_time_utc")
              "start_time_utc" = .ok ss := by
            rw [hls]; simp [ensureIsoDate, hpds]
          have hei : ensureIsoDate pd (payload.lookup "end_time_utc")
              "end_time_utc" = .ok es := by
            rw [hle]; simp [ensureIsoDate, hpde]
          have hcond : jsLeTime pd es ss = true := by
            unfold jsLeTime
            rw [hpde, hpds]
            simp [hts]
          unfold validateCreate
          rw [hen, han, hsi, hei]
          simp [Bind.bind, Except.bind, hcond]
        · right
          exact ⟨"artist_name is required.", by
            unfold validateCreate
            rw [hen, han]
            simp [Bind.bind, Except.bind]⟩
      · right
        exact ⟨"event_name is required.", by
          unfold validateCreate
          rw [hen]
          simp [Bind.bind, Except.bind]⟩
    have hvc' : ∃ m, validateCreate pd payload freshId =
        .error (.validation m) := by
      rcases hvc with hvc | hvc
      · exact ⟨_, hvc⟩
      · exact hvc
    obtain ⟨m, hm⟩ := hvc'
    unfold createEvent
    rw [hm]
    exact ⟨⟨m, rfl⟩, rfl⟩
  · intro pd persistOk events eventId payload e' hwf hok
    obtain ⟨i, cur, hf, hne, hv, hcat⟩ := updateEvent_ok hok
    obtain ⟨e1, e2, e3, e4, e5, h1, h2, h3, h4, h5, h6, hle⟩ :=
      validateUpdate_ok hv
    obtain ⟨a1id, a1art, a1st, a1en, a1tr, a1cov, a1none, a1set⟩ :=
      applyEventName_ok h1
    obtain ⟨a2id, a2nm, a2st, a2en, a2tr, a2cov, a2none⟩ :=
      applyArtistName_ok h2
    obtain ⟨a3id, a3nm, a3art, a3en, a3tr, a3cov, a3none, a3st⟩ :=
      applyStartTime_ok h3
    obtain ⟨a4id, a4nm, a4art, a4st, a4tr, a4cov, a4none, a4en⟩ :=
      applyEndTime_ok h4
    obtain ⟨a5id, a5nm, a5art, a5st, a5en, a5cov, a5none⟩ :=
      applyTracks_ok h5
    obtain ⟨a6id, a6nm, a6art, a6st, a6en, a6tr, a6none⟩ :=
      applyCover_ok h6
    have hcur := hwf cur (findEventIndex_mem hf)
    have hstart : (pd e'.start_time_utc).isSome := by
      rcases a3st with h32 | hsome
      · rw [a6st, a5st, a4st, h32, a2st, a1st]; exact hcur.1
      · rw [a6st, a5st, a4st]; exact hsome
    have hend : (pd e'.end_time_utc).isSome := by
      rcases a4en with h43 | hsome
      · rw [a6en, a5en, h43, a3en, a2en, a1en]; exact hcur.2
      · rw [a6en, a5en]; exact hsome
    obtain ⟨s, hs'⟩ := Option.isSome_iff_exists.mp hstart
    obtain ⟨t, ht'⟩ := Option.isSome_iff_exists.mp hend
    refine ⟨s, t, hs', ht', ?_⟩
    unfold jsLeTime at hle
    rw [ht', hs'] at hle
    simp at hle
    omega
  · intro pd persistOk events eventId payload i cur e' hf hne happ hcond
    have hemp : payload.isEmpty = false := by
      cases payload with
      | nil => exact absurd rfl hne
      | cons a rest => rfl
    have hvu : validateUpdate pd payload cur =
        .error (.validation "end_time_utc must be after start_time_utc.") := by
      unfold validateUpdate
      rw [happ]
      simp [Bind.bind, Except.bind, hcond]
    unfold updateEvent
    rw [hf]
    simp [hemp, hvu]

theorem end_after_start_enforced_witness :
    (∃ s t, pdEx eventEx.start_time_utc = some s ∧
      pdEx eventEx.end_time_utc = some t ∧ s < t) ∧
    ((∃ m, (createEvent pdEx persistAlways createPayloadBadTimes "e1"
        []).response = .error (.validation m)) ∧
      (createEvent pdEx persistAlways createPayloadBadTimes "e1"
        []).catalog = []) ∧
    (∃ s t,
      pdEx (EventRecord.mk "e1" "Sunrise Session" "DJ X"
        "2024-01-01T00:00:00Z" "2024-01-01T03:00:00Z" [trackEx]
        none).start_time_utc = some s ∧
      pdEx (EventRecord.mk "e1" "Sunrise Session" "DJ X"
        "2024-01-01T00:00:00Z" "2024-01-01T03:00:00Z" [trackEx]
        none).end_time_utc = some t ∧ s < t) ∧
    updateEvent pdEx persistAlways [eventEx] "e1" badRetimePayload =
      ⟨.error (.validation "end_time_utc must be after start_time_utc."),
        [eventEx], false, false⟩ :=
  ⟨end_after_start_enforced.1 pdEx persistAlways createPayloadEx "e1" []
      eventEx rfl,
    end_after_start_enforced.2.1 pdEx persistAlways createPayloadBadTimes
      "e1" [] "2024-01-01T02:00:00Z" "2024-01-01T00:00:00Z" 7200000 0
      rfl rfl rfl rfl (by decide),
    end_after_start_enforced.2.2.1 pdEx persistAlways [eventEx] "e1"
      retimePayload
      (EventRecord.mk "e1" "Sunrise Session" "DJ X" "2024-01-01T00:00:00Z"
        "2024-01-01T03:00:00Z" [trackEx] none)
      (by decide) rfl,
    end_after_start_enforced.2.2.2 pdEx persistAlways [eventEx] "e1"
      badRetimePayload 0 eventEx
      (EventRecord.mk "e1" "Sunrise Session" "DJ X" "2024-01-01T00:00:00Z"
        "2024-01-01T00:00:00Z" [trackEx] none)
      rfl (by unfold badRetimePayload; simp) rfl rfl⟩

/-- C5: a successful partial update keeps `event_id`, overwrites exactly
the supplied fields (an update supplying only `event_name` stores its
trimmed value), leaves every field whose key is absent from the payload
at its prior value, and persists the catalog with only the located index
replaced - every other position is unchanged. -/
theorem partial_update_frame {pd : String → Option Int}
    {persistOk : List EventRecord → Bool} {events : List EventRecord}
    {eventId : String} {payload : Payload} {i : Nat} {cur e' : EventRecord}
    (hf : findEventIndex events eventId = some (i, cur))
    (hok : (updateEvent pd persistOk events eventId payload).response =
      .ok e') :
    e'.event_id = cur.event_id ∧
    (payload.lookup "event_name" = none →
      e'.event_name = cur.event_name) ∧
    (∀ s, payload.lookup "event_name" = some (.str s) →
      e'.event_name = jsTrim s) ∧
    (payload.lookup "artist_name" = none →
      e'.artist_name = cur.artist_name) ∧
    (payload.lookup "start_time_utc" = none →
      e'.start_time_utc = cur.start_time_utc) ∧
    (payload.lookup "end_time_utc" = none →
      e'.end_time_utc = cur.end_time_utc) ∧
    (payload.lookup "tracks" = none → e'.tracks = cur.tracks) ∧
    (payload.lookup "cover_image_url" = none →
      e'.cover_image_url = cur.cover_image_url) ∧
    (updateEvent pd persistOk events eventId payload).catalog =
      events.set i e' ∧
    (∀ j, j ≠ i →
      (updateEvent pd persistOk events eventId payload).catalog[j]? =
        events[j]?) := by
  obtain ⟨i2, cur2, hf2, hne, hv, hcat⟩ := updateEvent_ok hok
  rw [hf] at hf2
  have hpair : i = i2 ∧ cur = cur2 := by
    injection hf2 with h
    exact ⟨congrArg Prod.fst h, congrArg Prod.snd h⟩
  obtain ⟨hi, hc⟩ := hpair
  subst hi
  subst hc
  obtain ⟨e1, e2, e3, e4, e5, h1, h2, h3, h4, h5, h6, hle⟩ :=
    validateUpdate_ok hv
  obtain ⟨a1id, a1art, a1st, a1en, a1tr, a1cov, a1none, a1set⟩ :=
    applyEventName_ok h1
  obtain ⟨a2id, a2nm, a2st, a2en, a2tr, a2cov, a2none⟩ :=
    applyArtistName_ok h2
  obtain ⟨a3id, a3nm, a3art, a3en, a3tr, a3cov, a3none, a3st⟩ :=
    applyStartTime_ok h3
  obtain ⟨a4id, a4nm, a4art, a4st, a4tr, a4cov, a4none, a4en⟩ :=
    applyEndTime_ok h4
  obtain ⟨a5id, a5nm, a5art, a5st, a5en, a5cov, a5none⟩ :=
    applyTracks_ok h5
  obtain ⟨a6id, a6nm, a6art, a6st, a6en, a6tr, a6none⟩ :=
    applyCover_ok h6
  refine ⟨?_, ?_, ?_, ?_, ?_, ?_, ?_, ?_, hcat, ?_⟩
  · rw [a6id, a5id, a4id, a3id, a2id, a1id]
  · intro hn
    rw [a6nm, a5nm, a4nm, a3nm, a2nm, a1none hn]
  · intro s hs
    rw [a6nm, a5nm, a4nm, a3nm, a2nm]
    exact a1set s hs
  · intro hn
    rw [a6art, a5art, a4art, a3art, a2none hn]
    exact a1art
  · intro hn
    rw [a6st, a5st, a4st, a3none hn, a2st]
    exact a1st
  · intro hn
    rw [a6en, a5en, a4none hn, a3en, a2en]
    exact a1en
  · intro hn
    rw [a6tr, a5none hn, a4tr, a3tr, a2tr]
    exact a1tr
  · intro hn
    rw [a6none hn, a5cov, a4cov, a3cov, a2cov]
    exact a1cov
  · intro j hj
    rw [hcat]
    exact List.getElem?_set_ne (Ne.symm hj)

theorem partial_update_frame_witness :
    (updateEvent pdEx persistAlways [eventEx, eventEx2] "e2"
        renamePayload).catalog =
      [eventEx, eventEx2].set 1
        (EventRecord.mk "e2" "New Name" "DJ Y" "2024-01-01T02:00:00Z"
          "2024-01-01T03:00:00Z" [trackEx] (some "https://cdn/c2.jpg")) ∧
    (EventRecord.mk "e2" "New Name" "DJ Y" "2024-01-01T02:00:00Z"
        "2024-01-01T03:00:00Z" [trackEx]
        (some "https://cdn/c2.jpg")).tracks = eventEx2.tracks ∧
    (EventRecord.mk "e2" "New Name" "DJ Y" "2024-01-01T02:00:00Z"
        "2024-01-01T03:00:00Z" [trackEx]
        (some "https://cdn/c2.jpg")).start_time_utc =
      eventEx2.start_time_utc ∧
    (EventRecord.mk "e2" "New Name" "DJ Y" "2024-01-01T02:00:00Z"
        "2024-01-01T03:00:00Z" [trackEx]
        (some "https://cdn/c2.jpg")).cover_image_url =
      eventEx2.cover_image_url ∧
    (EventRecord.mk "e2" "New Name" "DJ Y" "2024-01-01T02:00:00Z"
        "2024-01-01T03:00:00Z" [trackEx]
        (some "https://cdn/c2.jpg")).event_name = jsTrim "New Name" := by
  have h := partial_update_frame (rfl :
    findEventIndex [eventEx, eventEx2] "e2" = some (1, eventEx2)) (rfl :
      (updateEvent pdEx persistAlways [eventEx, eventEx2] "e2"
        renamePayload).response = .ok (EventRecord.mk "e2" "New Name"
          "DJ Y" "2024-01-01T02:00:00Z" "2024-01-01T03:00:00Z" [trackEx]
          (some "https://cdn/c2.jpg")))
  exact ⟨h.2.2.2.2.2.2.2.2.1, h.2.2.2.2.2.2.1 rfl, h.2.2.2.2.1 rfl,
    h.2.2.2.2.2.2.2.1 rfl, h.2.2.1 "New Name" rfl⟩

/-- C7 counterexample: the claim says a cover value of any non-string
type fails create with a ValidationError, but the create path silently
accepts a numeric `cover_image_url` - the create succeeds and the cover
field is simply omitted. -/
theorem cover_nonstring_create_accepted :
    (createEvent pdEx persistAlways createPayloadNumCover "e1"
        []).response = .ok eventEx ∧
      eventEx.cover_image_url = none :=
  ⟨rfl, rfl⟩

/-- C7 (amended): on the create path the cover is the trimmed value of a
non-blank string and is silently omitted for every other value (never a
ValidationError); on the update path an absent key leaves the cover
unchanged, null or the empty string clears it, a non-blank string sets
its trimmed value, and any other present value (a non-string, or a
blank non-empty string) is a ValidationError. -/
theorem cover_validation_amended :
    (∀ (pd : String → Option Int) (payload : Payload) (freshId : String)
        (e : EventRecord),
      validateCreate pd payload freshId = .ok e →
      e.cover_image_url =
        coverCreateSpec (payload.lookup "cover_image_url")) ∧
    (∀ (v : Option Json) (e : EventRecord),
      applyCover v e =
        match coverUpdateSpec v e.cover_image_url with
        | some c => .ok { e with cover_image_url := c }
        | none => .error (.validation
            "cover_image_url must be a string if provided.")) := by
  constructor
  · intro pd payload freshId e hv
    obtain ⟨en, an, si, ei, ts, hq1, hq2, hq3, hq4, hq5, hq6, hee⟩ :=
      validateCreate_ok hv
    subst hee
    rfl
  · intro v e
    match v with
    | none => rfl
    | some .null => rfl
    | some (.str s) =>
      by_cases h0 : s = ""
      · subst h0; rfl
      · by_cases ht : jsTrim s = ""
        · simp [applyCover, coverUpdateSpec, h0, ht]
        · simp [applyCover, coverUpdateSpec, h0, ht]
    | some (.bool b) => rfl
    | some (.num n) => rfl
    | some (.arr xs) => rfl
    | some (.obj fs) => rfl

theorem cover_validation_amended_witness :
    eventEx.cover_image_url =
      coverCreateSpec (createPayloadEx.lookup "cover_image_url") ∧
    applyCover (some (Json.num 42)) eventEx2 =
      .error (.validation "cover_image_url must be a string if provided.") :=
  ⟨cover_validation_amended.1 pdEx createPayloadEx "e1" eventEx rfl,
    cover_validation_amended.2 (some (Json.num 42)) eventEx2⟩
